import Mathlib

/-!
Verification of `cirkit/backend/compiler.py`: the rule-dispatching compiler
core (typed rule registries, the bijective compiled-circuit cache, and the
`compile` orchestration entry point of `AbstractCompiler`).

Python runtime values are embedded as follows: class objects (the exact
runtime types used as compilation signatures) are numeric tokens `Ty`;
Python's `issubclass` is an ambient boolean relation supplied as a
parameter; a rule function is its identity together with its
`__annotations__` dict, embedded as an insertion-ordered association list
(Python dicts preserve insertion order and have unique keys); raising code
returns `Except`/`Option`. Symbolic and compiled circuits are identified by
their object identity, embedded as numeric tokens.

`CompilerRegistry` (cirkit/backend/registry.py) and `BiMap`
(cirkit/utils/algorithms.py) are imported by the source file but their
modules are not part of it; their operations are modelled from the spec and
marked as such in their doc comments.
-/

namespace Cirkit

/-- A Python class object (an exact runtime type), identified by a token.
Compilation signatures are such tokens. -/
abbrev Ty := Nat

/-- A symbolic `Circuit`, identified by object identity. -/
abbrev Circuit := Nat

/-- A compiled circuit (the opaque backend value `CompiledCircuitT`),
identified by object identity. -/
abbrev CompiledCircuit := Nat

/-- A rule function value: its object identity together with its
`__annotations__` dict (insertion-ordered, `"return"` included when the
function declares a return annotation). -/
structure RuleFunc where
  rid : Nat
  anns : List (String × Ty)
deriving DecidableEq, Repr

/-- Errors arising from the rule registries.  `keyError` and `indexError`
are the Python built-in exceptions escaping the unguarded dict/tuple
lookups in `_validate_rule_function` / `_retrieve_signature`;
`ruleNotFound` is `CompilationRuleNotFound` from the source file;
`invalidRule` and `duplicateSignature` are the spec's `InvalidRuleError`
and `DuplicateSignatureError` raised by the (spec-modelled) registry base
class. -/
inductive RegErr where
  | keyError
  | indexError
  | invalidRule
  | duplicateSignature
  | ruleNotFound
deriving DecidableEq, Repr

/-- Python `k in d` on an `__annotations__` dict. -/
def dictContains (d : List (String × Ty)) (k : String) : Bool :=
  d.any (fun kv => kv.1 = k)

/-- Python `d[k]` on an `__annotations__` dict, as an `Option`. -/
def dictGet (d : List (String × Ty)) (k : String) : Option Ty :=
  (d.find? (fun kv => kv.1 = k)).map Prod.snd

/-- Python `del d[k]`: removes the entry with key `k`, raising `KeyError`
when `k` is not a key of `d`. -/
def dictDel (d : List (String × Ty)) (k : String) :
    Except RegErr (List (String × Ty)) :=
  if dictContains d k then .ok (d.filter (fun kv => kv.1 ≠ k)) else .error .keyError

/-- `_validate_rule_function` of `CompilerLayerRegistry`,
`CompilerParameterRegistry` and `CompilerInitializerRegistry` (the three
classmethods are textually identical up to the category base class):
`ann = func.__annotations__.copy(); del ann["return"];
args = tuple(ann.keys()); return issubclass(ann[args[-1]], Base)`.
`issub` is Python's `issubclass` and `base` the category base class
(`Layer`, `ParameterNode` or `Initializer`).  `args[-1]` on an empty tuple
raises `IndexError`. -/
def validate_rule_function (issub : Ty → Ty → Bool) (base : Ty)
    (f : RuleFunc) : Except RegErr Bool :=
  match dictDel f.anns "return" with
  | .error e => .error e
  | .ok ann =>
    match (ann.map Prod.fst).getLast? with
    | none => .error .indexError
    | some k =>
      match dictGet ann k with
      | none => .error .keyError
      | some t => .ok (issub t base)

/-- `_retrieve_signature` of the three registry classes:
`ann = func.__annotations__.copy(); del ann["return"];
args = tuple(ann.keys()); return ann[args[-1]]`. -/
def retrieve_signature (f : RuleFunc) : Except RegErr Ty :=
  match dictDel f.anns "return" with
  | .error e => .error e
  | .ok ann =>
    match (ann.map Prod.fst).getLast? with
    | none => .error .indexError
    | some k =>
      match dictGet ann k with
      | none => .error .keyError
      | some t => .ok t

/-- The declared type of the last typed parameter of a rule function,
excluding the `"return"` annotation — the spec's characterisation of the
dispatch signature. -/
def lastParamType (f : RuleFunc) : Option Ty :=
  ((f.anns.filter (fun kv => kv.1 ≠ "return")).getLast?).map Prod.snd

/-- A rule registry's table, mapping compilation signatures to rule
functions.  The subclasses `CompilerLayerRegistry`,
`CompilerParameterRegistry` and `CompilerInitializerRegistry` share this
shape and differ only in the category base class they validate against. -/
structure CompilerRegistry where
  rules : List (Ty × RuleFunc)
deriving DecidableEq, Repr

/-- Modelled from the spec: `CompilerRegistry.retrieve_rule`
(cirkit/backend/registry.py is not under the sources).  Returns the rule
registered for exactly `signature`; fails with
`CompilationRuleNotFound` if absent — no fallback to supertype rules. -/
def CompilerRegistry.retrieve_rule (reg : CompilerRegistry) (signature : Ty) :
    Except RegErr RuleFunc :=
  match reg.rules.find? (fun kv => kv.1 = signature) with
  | some kv => .ok kv.2
  | none => .error .ruleNotFound

/-- Modelled from the spec: `CompilerRegistry.add_rule`
(cirkit/backend/registry.py is not under the sources).  Validates the rule
function via the subclass's `_validate_rule_function`, failing with
`InvalidRuleError` when validation returns false; derives the signature via
`_retrieve_signature`; fails with `DuplicateSignatureError` if a rule
already exists for that exact signature; otherwise stores the
association. -/
def CompilerRegistry.add_rule (issub : Ty → Ty → Bool) (base : Ty)
    (reg : CompilerRegistry) (f : RuleFunc) : Except RegErr CompilerRegistry :=
  match validate_rule_function issub base f with
  | .error e => .error e
  | .ok false => .error .invalidRule
  | .ok true =>
    match retrieve_signature f with
    | .error e => .error e
    | .ok sig =>
      if reg.rules.any (fun kv => kv.1 = sig) then .error .duplicateSignature
      else .ok ⟨reg.rules ++ [(sig, f)]⟩

/-- Errors arising from the compiled-circuit map: the spec's
`NotFoundError` (a lookup on an unregistered circuit) and
`AlreadyRegisteredError` (an insertion whose side already participates in a
mapping). -/
inductive MapErr where
  | notFound
  | alreadyRegistered
deriving DecidableEq, Repr

/-- Modelled from the spec: `BiMap` (cirkit/utils/algorithms.py is not
under the sources).  A bijective map implemented as two ordinary mappings
(left-to-right and right-to-left) updated together under one insertion
routine that checks both directions before mutating either; lookups on a
missing key fail with `NotFoundError`, insertion on an already-present side
fails with `AlreadyRegisteredError`. -/
structure BiMap where
  fwd : List (Circuit × CompiledCircuit)
  bwd : List (CompiledCircuit × Circuit)
deriving DecidableEq, Repr

/-- Modelled from the spec: `BiMap.has_left`. -/
def BiMap.has_left (m : BiMap) (x : Circuit) : Bool :=
  m.fwd.any (fun kv => kv.1 = x)

/-- Modelled from the spec: `BiMap.has_right`. -/
def BiMap.has_right (m : BiMap) (y : CompiledCircuit) : Bool :=
  m.bwd.any (fun kv => kv.1 = y)

/-- Modelled from the spec: `BiMap.get_left`; fails with `NotFoundError`
when `x` was never registered. -/
def BiMap.get_left (m : BiMap) (x : Circuit) : Except MapErr CompiledCircuit :=
  match m.fwd.find? (fun kv => kv.1 = x) with
  | some kv => .ok kv.2
  | none => .error .notFound

/-- Modelled from the spec: `BiMap.get_right`; fails with `NotFoundError`
symmetrically. -/
def BiMap.get_right (m : BiMap) (y : CompiledCircuit) : Except MapErr Circuit :=
  match m.bwd.find? (fun kv => kv.1 = y) with
  | some kv => .ok kv.2
  | none => .error .notFound

/-- Modelled from the spec: `BiMap.add`.  Fails with
`AlreadyRegisteredError` if either side is already present; otherwise
inserts both the forward and the reverse association atomically. -/
def BiMap.add (m : BiMap) (x : Circuit) (y : CompiledCircuit) :
    Except MapErr BiMap :=
  if m.has_left x || m.has_right y then .error .alreadyRegistered
  else .ok ⟨m.fwd ++ [(x, y)], m.bwd ++ [(y, x)]⟩

/-- `CompiledCircuitsMap`: wraps a `BiMap` between symbolic and compiled
circuits. -/
structure CompiledCircuitsMap where
  bimap : BiMap
deriving DecidableEq, Repr

/-- `CompiledCircuitsMap.is_compiled`. -/
def CompiledCircuitsMap.is_compiled (m : CompiledCircuitsMap) (sc : Circuit) : Bool :=
  m.bimap.has_left sc

/-- `CompiledCircuitsMap.has_symbolic`. -/
def CompiledCircuitsMap.has_symbolic (m : CompiledCircuitsMap) (cc : CompiledCircuit) : Bool :=
  m.bimap.has_right cc

/-- `CompiledCircuitsMap.get_compiled_circuit`. -/
def CompiledCircuitsMap.get_compiled_circuit (m : CompiledCircuitsMap) (sc : Circuit) :
    Except MapErr CompiledCircuit :=
  m.bimap.get_left sc

/-- `CompiledCircuitsMap.get_symbolic_circuit`. -/
def CompiledCircuitsMap.get_symbolic_circuit (m : CompiledCircuitsMap) (cc : CompiledCircuit) :
    Except MapErr Circuit :=
  m.bimap.get_right cc

/-- `CompiledCircuitsMap.register_compiled_circuit`: delegates to
`BiMap.add`. -/
def CompiledCircuitsMap.register_compiled_circuit (m : CompiledCircuitsMap)
    (sc : Circuit) (cc : CompiledCircuit) : Except MapErr CompiledCircuitsMap :=
  (m.bimap.add sc cc).map (fun b => ⟨b⟩)

/-- The mutable state of an `AbstractCompiler` instance: the three rule
registries and the compiled-circuit map (the opaque `**flags` do not
influence any operation of the core and are omitted). -/
structure CompilerState where
  layers_registry : CompilerRegistry
  parameters_registry : CompilerRegistry
  initializers_registry : CompilerRegistry
  compiled_circuits : CompiledCircuitsMap
deriving DecidableEq, Repr

/-- `AbstractCompiler.is_compiled`. -/
def CompilerState.is_compiled (st : CompilerState) (sc : Circuit) : Bool :=
  st.compiled_circuits.is_compiled sc

/-- `AbstractCompiler.has_symbolic`. -/
def CompilerState.has_symbolic (st : CompilerState) (cc : CompiledCircuit) : Bool :=
  st.compiled_circuits.has_symbolic cc

/-- `AbstractCompiler.get_compiled_circuit`. -/
def CompilerState.get_compiled_circuit (st : CompilerState) (sc : Circuit) :
    Except MapErr CompiledCircuit :=
  st.compiled_circuits.get_compiled_circuit sc

/-- `AbstractCompiler.get_symbolic_circuit`. -/
def CompilerState.get_symbolic_circuit (st : CompilerState) (cc : CompiledCircuit) :
    Except MapErr Circuit :=
  st.compiled_circuits.get_symbolic_circuit cc

/-- `AbstractCompiler.register_compiled_circuit`. -/
def CompilerState.register_compiled_circuit (st : CompilerState)
    (sc : Circuit) (cc : CompiledCircuit) : Except MapErr CompilerState :=
  (st.compiled_circuits.register_compiled_circuit sc cc).map
    (fun m => { st with compiled_circuits := m })

/-- The abstract `compile_pipeline` hook.  A Python pipeline may mutate the
compiler state (it registers results through
`register_compiled_circuit`) and may raise; side effects performed before a
raise persist, so the hook returns the state it leaves behind together with
`some` compiled value on success or `none` when it raises. -/
abbrev Pipeline := CompilerState → Circuit → CompilerState × Option CompiledCircuit

/-- `AbstractCompiler.compile`:
`if self.is_compiled(sc): return self.get_compiled_circuit(sc);
return self.compile_pipeline(sc)`.  Returns the state after the call, the
compiled value (`none` when an exception propagates) and, as
instrumentation, the number of `compile_pipeline` invocations this call
performed. -/
def compile (pl : Pipeline) (st : CompilerState) (sc : Circuit) :
    CompilerState × Option CompiledCircuit × Nat :=
  if st.is_compiled sc then
    match st.get_compiled_circuit sc with
    | .ok c => (st, some c, 0)
    | .error _ => (st, none, 0)
  else
    match pl st sc with
    | (st1, r) => (st1, r, 1)

section AssocListLemmas

variable {α β : Type} [DecidableEq α]

/-- In an association list with pairwise-distinct keys, `find?` on a key
returns the unique entry carrying it. -/
theorem find?_key_of_mem {l : List (α × β)} (hnd : (l.map Prod.fst).Nodup)
    {k : α} {v : β} (h : (k, v) ∈ l) :
    l.find? (fun kv => kv.1 = k) = some (k, v) := by
  induction l with
  | nil => simp at h
  | cons a l ih =>
    simp only [List.map_cons, List.nodup_cons] at hnd
    rcases List.mem_cons.mp h with h | h
    · subst h
      simp [List.find?_cons]
    · have hne : ¬a.1 = k := by
        intro he
        exact hnd.1 (he ▸ List.mem_map.mpr ⟨(k, v), h, rfl⟩)
      rw [List.find?_cons, decide_eq_false hne]
      exact ih hnd.2 h

/-- `find?` on a key of which the list holds no entry returns `none`. -/
theorem find?_key_eq_none {l : List (α × β)} {k : α}
    (h : l.any (fun kv => kv.1 = k) = false) :
    l.find? (fun kv => kv.1 = k) = none := by
  simp only [List.any_eq_false, decide_eq_true_eq] at h
  exact List.find?_eq_none.mpr (by simpa using h)

/-- Appending a fresh entry makes it the one `find?` returns for its
key. -/
theorem find?_key_append_last {l : List (α × β)} {k : α} (v : β)
    (h : l.any (fun kv => kv.1 = k) = false) :
    (l ++ [(k, v)]).find? (fun kv => kv.1 = k) = some (k, v) := by
  induction l with
  | nil => simp [List.find?_cons]
  | cons a l ih =>
    simp only [List.any_cons, Bool.or_eq_false_iff, decide_eq_false_iff_not] at h
    rw [List.cons_append, List.find?_cons, decide_eq_false h.1]
    exact ih h.2

/-- A key missing from every entry is not among the keys. -/
theorem not_mem_keys_of_any_false {l : List (α × β)} {k : α}
    (h : l.any (fun kv => kv.1 = k) = false) : k ∉ l.map Prod.fst := by
  simp only [List.any_eq_false, decide_eq_true_eq] at h
  simp only [List.mem_map, not_exists, not_and]
  intro kv hkv hk
  exact h kv hkv hk

/-- In an association list with pairwise-distinct keys, a key determines
its value. -/
theorem key_unique_of_nodup {l : List (α × β)} (hnd : (l.map Prod.fst).Nodup)
    {k : α} {v v' : β} (h : (k, v) ∈ l) (h' : (k, v') ∈ l) : v = v' := by
  have h1 := find?_key_of_mem hnd h
  have h2 := find?_key_of_mem hnd h'
  rw [h1] at h2
  exact (Prod.mk.injEq .. ▸ Option.some.inj h2).2

end AssocListLemmas

/-- On a well-formed annotated rule function (a genuine dict, so keys are
unique, and a declared `"return"` annotation), `_validate_rule_function`
returns `issubclass` applied to the declared type of the last typed
parameter. -/
theorem validate_rule_function_eq (issub : Ty → Ty → Bool) (base : Ty)
    {f : RuleFunc} (hnd : (f.anns.map Prod.fst).Nodup)
    (hret : dictContains f.anns "return" = true)
    {t : Ty} (hlast : lastParamType f = some t) :
    validate_rule_function issub base f = .ok (issub t base) := by
  have hdel : dictDel f.anns "return" =
      .ok (f.anns.filter (fun kv => kv.1 ≠ "return")) := by
    unfold dictDel
    rw [if_pos hret]
  obtain ⟨kv, hkv, hkvt⟩ :
      ∃ kv, (f.anns.filter (fun kv => kv.1 ≠ "return")).getLast? = some kv ∧
        kv.2 = t := by
    unfold lastParamType at hlast
    exact Option.map_eq_some'.mp hlast
  have hkeys :
      ((f.anns.filter (fun kv => kv.1 ≠ "return")).map Prod.fst).getLast? =
        some kv.1 := by
    rw [List.getLast?_map, hkv]; rfl
  have hndf : ((f.anns.filter (fun kv => kv.1 ≠ "return")).map Prod.fst).Nodup :=
    ((List.filter_sublist f.anns).map Prod.fst).nodup hnd
  have hmem : kv ∈ f.anns.filter (fun kv => kv.1 ≠ "return") :=
    List.mem_of_mem_getLast? (hkv ▸ rfl)
  have hget : dictGet (f.anns.filter (fun kv => kv.1 ≠ "return")) kv.1 = some t := by
    unfold dictGet
    rw [find?_key_of_mem hndf (k := kv.1) (v := kv.2) hmem, Option.map_some']
    exact congrArg some hkvt
  unfold validate_rule_function
  simp only [hdel, hkeys, hget]

/-- On a well-formed annotated rule function, `_retrieve_signature`
returns the declared type of the last typed parameter, excluding the
return annotation. -/
theorem retrieve_signature_eq {f : RuleFunc}
    (hnd : (f.anns.map Prod.fst).Nodup)
    (hret : dictContains f.anns "return" = true)
    {t : Ty} (hlast : lastParamType f = some t) :
    retrieve_signature f = .ok t := by
  have hdel : dictDel f.anns "return" =
      .ok (f.anns.filter (fun kv => kv.1 ≠ "return")) := by
    unfold dictDel
    rw [if_pos hret]
  obtain ⟨kv, hkv, hkvt⟩ :
      ∃ kv, (f.anns.filter (fun kv => kv.1 ≠ "return")).getLast? = some kv ∧
        kv.2 = t := by
    unfold lastParamType at hlast
    exact Option.map_eq_some'.mp hlast
  have hkeys :
      ((f.anns.filter (fun kv => kv.1 ≠ "return")).map Prod.fst).getLast? =
        some kv.1 := by
    rw [List.getLast?_map, hkv]; rfl
  have hndf : ((f.anns.filter (fun kv => kv.1 ≠ "return")).map Prod.fst).Nodup :=
    ((List.filter_sublist f.anns).map Prod.fst).nodup hnd
  have hmem : kv ∈ f.anns.filter (fun kv => kv.1 ≠ "return") :=
    List.mem_of_mem_getLast? (hkv ▸ rfl)
  have hget : dictGet (f.anns.filter (fun kv => kv.1 ≠ "return")) kv.1 = some t := by
    unfold dictGet
    rw [find?_key_of_mem hndf (k := kv.1) (v := kv.2) hmem, Option.map_some']
    exact congrArg some hkvt
  unfold retrieve_signature
  simp only [hdel, hkeys, hget]

/-- C3: `retrieve_rule` returns the rule registered for exactly the
requested signature and fails with `CompilationRuleNotFound` when no rule
is registered for that exact type, even when a rule is registered for a
supertype; if rules exist for a type `A` and its subtype `B`, signature `B`
dispatches to `B`'s rule, never `A`'s — the `issubclass` relation plays no
role in retrieval. -/
theorem retrieve_rule_exact_dispatch (reg : CompilerRegistry)
    (issub : Ty → Ty → Bool) (A B C : Ty) (fA fB : RuleFunc)
    (hnd : (reg.rules.map Prod.fst).Nodup)
    (hBA : issub B A = true) (hCA : issub C A = true)
    (hA : (A, fA) ∈ reg.rules) (hB : (B, fB) ∈ reg.rules)
    (hC : reg.rules.any (fun kv => kv.1 = C) = false) :
    reg.retrieve_rule A = .ok fA ∧
    reg.retrieve_rule B = .ok fB ∧
    reg.retrieve_rule C = .error .ruleNotFound := by
  unfold CompilerRegistry.retrieve_rule
  rw [find?_key_of_mem hnd hA, find?_key_of_mem hnd hB, find?_key_eq_none hC]
  exact ⟨rfl, rfl, rfl⟩

/-- C4: a rule function whose last typed parameter's declared type is not a
subtype of the registry's category base type is rejected by `add_rule` with
`InvalidRuleError` at registration time, and nothing is stored. -/
theorem add_rule_rejects_invalid_rule (issub : Ty → Ty → Bool) (base : Ty)
    (reg : CompilerRegistry) (f : RuleFunc) (t : Ty)
    (hnd : (f.anns.map Prod.fst).Nodup)
    (hret : dictContains f.anns "return" = true)
    (hlast : lastParamType f = some t)
    (hsub : issub t base = false) :
    reg.add_rule issub base f = .error .invalidRule := by
  have hval := validate_rule_function_eq issub base hnd hret hlast
  rw [hsub] at hval
  unfold CompilerRegistry.add_rule
  simp only [hval]

/-- C7: the compilation signature under which `add_rule` stores an accepted
rule function — and under which `retrieve_rule` later finds it — is exactly
the declared type annotation of the rule's last typed parameter, excluding
the return annotation. -/
theorem signature_derivation (issub : Ty → Ty → Bool) (base : Ty)
    (reg reg' : CompilerRegistry) (f : RuleFunc) (t : Ty)
    (hnd : (f.anns.map Prod.fst).Nodup)
    (hret : dictContains f.anns "return" = true)
    (hlast : lastParamType f = some t)
    (hadd : reg.add_rule issub base f = .ok reg') :
    retrieve_signature f = .ok t ∧
    reg'.rules = reg.rules ++ [(t, f)] ∧
    reg'.retrieve_rule t = .ok f := by
  have hval := validate_rule_function_eq issub base hnd hret hlast
  have hsig := retrieve_signature_eq hnd hret hlast
  cases hsub : issub t base with
  | false =>
    rw [hsub] at hval
    unfold CompilerRegistry.add_rule at hadd
    simp only [hval] at hadd
    exact absurd hadd (by simp)
  | true =>
    rw [hsub] at hval
    unfold CompilerRegistry.add_rule at hadd
    simp only [hval, hsig] at hadd
    by_cases hdup : reg.rules.any (fun kv => kv.1 = t) = true
    · rw [if_pos hdup] at hadd
      exact absurd hadd (by simp)
    · rw [if_neg hdup] at hadd
      have hfree : reg.rules.any (fun kv => kv.1 = t) = false :=
        Bool.eq_false_iff.mpr hdup
      injection hadd with h
      subst h
      refine ⟨hsig, rfl, ?_⟩
      unfold CompilerRegistry.retrieve_rule
      rw [show (CompilerRegistry.mk (reg.rules ++ [(t, f)])).rules =
            reg.rules ++ [(t, f)] from rfl]
      rw [find?_key_append_last f hfree]

/-- C8: when a rule is already registered for a signature, a later
`add_rule` whose derived signature is that same exact signature fails with
`DuplicateSignatureError`, and the previously registered rule stays in
place. -/
theorem add_rule_duplicate_signature (issub : Ty → Ty → Bool) (base : Ty)
    (reg : CompilerRegistry) (f g : RuleFunc) (sig : Ty)
    (hnd : (f.anns.map Prod.fst).Nodup)
    (hret : dictContains f.anns "return" = true)
    (hlast : lastParamType f = some sig)
    (hsub : issub sig base = true)
    (hndr : (reg.rules.map Prod.fst).Nodup)
    (hmem : (sig, g) ∈ reg.rules) :
    reg.add_rule issub base f = .error .duplicateSignature ∧
    reg.retrieve_rule sig = .ok g := by
  have hval := validate_rule_function_eq issub base hnd hret hlast
  rw [hsub] at hval
  have hsig := retrieve_signature_eq hnd hret hlast
  have hdup : reg.rules.any (fun kv => kv.1 = sig) = true :=
    List.any_eq_true.mpr ⟨(sig, g), hmem, by simp⟩
  constructor
  · unfold CompilerRegistry.add_rule
    simp only [hval, hsig, hdup, if_true]
  · unfold CompilerRegistry.retrieve_rule
    rw [find?_key_of_mem hndr hmem]

/-- C10: validation and signature derivation presuppose a well-formed
annotated function — on a function without a `"return"` annotation the
`del ann["return"]` step escapes with Python's `KeyError`, and on a
function whose only annotation is the return annotation the `args[-1]`
step escapes with `IndexError`; neither path raises `InvalidRuleError`,
and `add_rule` propagates the lookup error. -/
theorem rule_validation_unguarded (issub : Ty → Ty → Bool) (base : Ty)
    (reg : CompilerRegistry) (f : RuleFunc) :
    (dictContains f.anns "return" = false →
      validate_rule_function issub base f = .error .keyError ∧
      retrieve_signature f = .error .keyError ∧
      reg.add_rule issub base f = .error .keyError) ∧
    (dictContains f.anns "return" = true →
      f.anns.filter (fun kv => kv.1 ≠ "return") = [] →
      validate_rule_function issub base f = .error .indexError ∧
      retrieve_signature f = .error .indexError ∧
      reg.add_rule issub base f = .error .indexError) := by
  constructor
  · intro h
    have hdel : dictDel f.anns "return" = .error .keyError := by
      unfold dictDel
      rw [if_neg (by simp [h])]
    have hv : validate_rule_function issub base f = .error .keyError := by
      unfold validate_rule_function
      simp only [hdel]
    have hs : retrieve_signature f = .error .keyError := by
      unfold retrieve_signature
      simp only [hdel]
    refine ⟨hv, hs, ?_⟩
    unfold CompilerRegistry.add_rule
    simp only [hv]
  · intro h hfil
    have hdel : dictDel f.anns "return" = .ok [] := by
      unfold dictDel
      rw [if_pos h, hfil]
    have hv : validate_rule_function issub base f = .error .indexError := by
      unfold validate_rule_function
      simp [hdel]
    have hs : retrieve_signature f = .error .indexError := by
      unfold retrieve_signature
      simp [hdel]
    refine ⟨hv, hs, ?_⟩
    unfold CompilerRegistry.add_rule
    simp only [hv]

/-- The bijection invariant of the compiled-circuit map: the forward keys
are pairwise distinct, the backward keys are pairwise distinct, and the two
mappings mirror each other. -/
def CompiledCircuitsMap.Inv (m : CompiledCircuitsMap) : Prop :=
  (m.bimap.fwd.map Prod.fst).Nodup ∧
  (m.bimap.bwd.map Prod.fst).Nodup ∧
  ∀ s c, (s, c) ∈ m.bimap.fwd ↔ (c, s) ∈ m.bimap.bwd

/-- A successful `register_compiled_circuit` appends exactly the two
mirrored associations. -/
theorem register_ok_elim {m m' : CompiledCircuitsMap}
    {s : Circuit} {c : CompiledCircuit}
    (hreg : m.register_compiled_circuit s c = .ok m') :
    m.bimap.has_left s = false ∧ m.bimap.has_right c = false ∧
    m'.bimap.fwd = m.bimap.fwd ++ [(s, c)] ∧
    m'.bimap.bwd = m.bimap.bwd ++ [(c, s)] := by
  unfold CompiledCircuitsMap.register_compiled_circuit BiMap.add at hreg
  by_cases h : (m.bimap.has_left s || m.bimap.has_right c) = true
  · rw [if_pos h] at hreg
    exact absurd hreg (by simp [Except.map])
  · rw [if_neg h] at hreg
    simp only [Bool.or_eq_true, not_or, Bool.not_eq_true] at h
    simp only [Except.map] at hreg
    injection hreg with h'
    subst h'
    exact ⟨h.1, h.2, rfl, rfl⟩

/-- C2: for every pair successfully registered in a map satisfying the
bijection invariant, the forward and backward lookups return each other's
side, the invariant is preserved, and — in the new map as in any map
satisfying the invariant — no symbolic circuit maps to more than one
compiled circuit and no compiled circuit maps to more than one symbolic
circuit. -/
theorem compiled_circuits_map_bijection (m m' : CompiledCircuitsMap)
    (hm : m.Inv) (s : Circuit) (c : CompiledCircuit)
    (hreg : m.register_compiled_circuit s c = .ok m') :
    m'.Inv ∧
    m'.get_compiled_circuit s = .ok c ∧
    m'.get_symbolic_circuit c = .ok s ∧
    (∀ x y y', (x, y) ∈ m'.bimap.fwd → (x, y') ∈ m'.bimap.fwd → y = y') ∧
    (∀ x x' y, (x, y) ∈ m'.bimap.fwd → (x', y) ∈ m'.bimap.fwd → x = x') := by
  obtain ⟨hls, hrc, hfwd, hbwd⟩ := register_ok_elim hreg
  obtain ⟨hndf, hndb, hmir⟩ := hm
  have hndf' : (m'.bimap.fwd.map Prod.fst).Nodup := by
    rw [hfwd, List.map_append]
    rw [List.nodup_append]
    exact ⟨hndf, List.nodup_singleton s,
      List.disjoint_singleton.mpr (not_mem_keys_of_any_false hls)⟩
  have hndb' : (m'.bimap.bwd.map Prod.fst).Nodup := by
    rw [hbwd, List.map_append]
    rw [List.nodup_append]
    exact ⟨hndb, List.nodup_singleton c,
      List.disjoint_singleton.mpr (not_mem_keys_of_any_false hrc)⟩
  have hmir' : ∀ s' c', (s', c') ∈ m'.bimap.fwd ↔ (c', s') ∈ m'.bimap.bwd := by
    intro s' c'
    rw [hfwd, hbwd]
    simp only [List.mem_append, List.mem_singleton, Prod.mk.injEq]
    constructor
    · rintro (h | ⟨h1, h2⟩)
      · exact Or.inl ((hmir s' c').mp h)
      · exact Or.inr ⟨h2, h1⟩
    · rintro (h | ⟨h1, h2⟩)
      · exact Or.inl ((hmir s' c').mpr h)
      · exact Or.inr ⟨h2, h1⟩
  refine ⟨⟨hndf', hndb', hmir'⟩, ?_, ?_, ?_, ?_⟩
  · unfold CompiledCircuitsMap.get_compiled_circuit BiMap.get_left
    rw [hfwd, find?_key_append_last c hls]
  · unfold CompiledCircuitsMap.get_symbolic_circuit BiMap.get_right
    rw [hbwd, find?_key_append_last s hrc]
  · intro x y y' hy hy'
    exact key_unique_of_nodup hndf' hy hy'
  · intro x x' y hx hx'
    exact key_unique_of_nodup hndb' ((hmir' x y).mp hx) ((hmir' x' y).mp hx')

/-- C6: `register_compiled_circuit` fails with `AlreadyRegisteredError`
when the symbolic circuit is already a forward key or the compiled circuit
is already a backward key, and otherwise inserts the forward and the
backward association together — after the call either both associations
exist or (on failure) neither was touched. -/
theorem register_compiled_circuit_atomic (m : CompiledCircuitsMap)
    (s : Circuit) (c : CompiledCircuit) :
    (m.is_compiled s = true ∨ m.has_symbolic c = true →
      m.register_compiled_circuit s c = .error .alreadyRegistered) ∧
    (m.is_compiled s = false → m.has_symbolic c = false →
      m.register_compiled_circuit s c =
        .ok ⟨⟨m.bimap.fwd ++ [(s, c)], m.bimap.bwd ++ [(c, s)]⟩⟩) := by
  constructor
  · intro h
    unfold CompiledCircuitsMap.register_compiled_circuit BiMap.add
    have hcond : (m.bimap.has_left s || m.bimap.has_right c) = true := by
      rcases h with h | h
      · simp [CompiledCircuitsMap.is_compiled] at h
        simp [h]
      · simp [CompiledCircuitsMap.has_symbolic] at h
        simp [h]
    rw [if_pos hcond]
    rfl
  · intro h1 h2
    unfold CompiledCircuitsMap.register_compiled_circuit BiMap.add
    have hcond : ¬(m.bimap.has_left s || m.bimap.has_right c) = true := by
      simp only [Bool.or_eq_true, not_or, Bool.not_eq_true]
      exact ⟨h1, h2⟩
    rw [if_neg hcond]
    rfl

/-- The spec's contract for `compile_pipeline` implementations: every
successful invocation registers its result in the compiled-circuit map
before returning. -/
def RegisteringPipeline (pl : Pipeline) : Prop :=
  ∀ st sc st' c, pl st sc = (st', some c) →
    st'.is_compiled sc = true ∧ st'.get_compiled_circuit sc = .ok c

/-- The spec's failure contract for `compile_pipeline` implementations: a
raising invocation leaves the compiler state exactly as it was (no entry
added). -/
def NonPollutingPipeline (pl : Pipeline) : Prop :=
  ∀ st sc st', pl st sc = (st', none) → st' = st

/-- C1: for a pipeline honouring the registration contract, compiling a
not-yet-compiled circuit invokes `compile_pipeline` exactly once, and a
second `compile` on the same circuit returns the identical compiled value
with zero further pipeline invocations and no state change. -/
theorem compile_memoization (pl : Pipeline) (hpl : RegisteringPipeline pl)
    (st st1 : CompilerState) (sc : Circuit) (c : CompiledCircuit) (n : Nat)
    (hnc : st.is_compiled sc = false)
    (h1 : compile pl st sc = (st1, some c, n)) :
    n = 1 ∧ compile pl st1 sc = (st1, some c, 0) := by
  unfold compile at h1
  rw [if_neg (by simp [hnc])] at h1
  rcases hp : pl st sc with ⟨st', r⟩
  rw [hp] at h1
  simp only [Prod.mk.injEq] at h1
  obtain ⟨e1, e2, e3⟩ := h1
  have hp' : pl st sc = (st1, some c) := by rw [hp, e1, e2]
  obtain ⟨hic, hgc⟩ := hpl st sc st1 c hp'
  refine ⟨e3.symm, ?_⟩
  unfold compile
  rw [if_pos (by simp [hic]), hgc]

/-- C5: for a pipeline honouring the failure contract, a `compile` call
whose pipeline invocation raises leaves the compiler state exactly as it
was before the call, the circuit stays uncompiled, and a retry re-invokes
the full pipeline. -/
theorem compile_failure_no_pollution (pl : Pipeline)
    (hpl : NonPollutingPipeline pl)
    (st st1 : CompilerState) (sc : Circuit) (n : Nat)
    (hnc : st.is_compiled sc = false)
    (h1 : compile pl st sc = (st1, none, n)) :
    st1 = st ∧ st1.is_compiled sc = false ∧
    (compile pl st1 sc).2.2 = 1 := by
  unfold compile at h1
  rw [if_neg (by simp [hnc])] at h1
  rcases hp : pl st sc with ⟨st', r⟩
  rw [hp] at h1
  simp only [Prod.mk.injEq] at h1
  obtain ⟨e1, e2, e3⟩ := h1
  have hp' : pl st sc = (st1, none) := by rw [hp, e1, e2]
  have hst : st1 = st := hpl st sc st1 hp'
  have hic : st1.is_compiled sc = false := by rw [hst]; exact hnc
  refine ⟨hst, hic, ?_⟩
  unfold compile
  rw [if_neg (by simp [hic])]

/-- C9: `compile` never registers the compiled result itself and does not
enforce that the pipeline did — on a cache miss it returns
`compile_pipeline`'s value and state unchanged, so if the pipeline left the
compiled-circuit map untouched, the circuit remains uncompiled and every
later `compile` call re-invokes the pipeline. -/
theorem compile_does_not_register (pl : Pipeline)
    (st st1 : CompilerState) (sc : Circuit) (c : CompiledCircuit)
    (hnc : st.is_compiled sc = false)
    (hpl : pl st sc = (st1, some c))
    (hmap : st1.compiled_circuits = st.compiled_circuits) :
    compile pl st sc = (st1, some c, 1) ∧
    st1.is_compiled sc = false ∧
    (compile pl st1 sc).2.2 = 1 := by
  have hic : st1.is_compiled sc = false := by
    unfold CompilerState.is_compiled
    rw [hmap]
    exact hnc
  refine ⟨?_, hic, ?_⟩
  · unfold compile
    rw [if_neg (by simp [hnc]), hpl]
  · unfold compile
    rw [if_neg (by simp [hic])]

/-- Witness data: a concrete class hierarchy — token 3 is the category base
class, tokens 4 and 5 are its subclasses, token 7 is unrelated. -/
def demoIssub : Ty → Ty → Bool := fun t b =>
  t = b || (t = 4 && b = 3) || (t = 5 && b = 3)

/-- Witness data: a rule declared over the base class token 3. -/
def demoRuleA : RuleFunc := ⟨1, [("compiler", 0), ("sl", 3), ("return", 9)]⟩

/-- Witness data: a rule declared over the subclass token 4. -/
def demoRuleB : RuleFunc := ⟨2, [("compiler", 0), ("sl", 4), ("return", 9)]⟩

/-- Witness data: a registry holding rules for tokens 3 and 4. -/
def demoRegistry : CompilerRegistry := ⟨[(3, demoRuleA), (4, demoRuleB)]⟩

/-- Witness data: a rule declared over the non-subclass token 7. -/
def demoBadRule : RuleFunc := ⟨3, [("compiler", 0), ("obj", 7), ("return", 9)]⟩

/-- Witness data: a rule declared over the subclass token 5. -/
def demoRuleC : RuleFunc := ⟨4, [("compiler", 0), ("sl", 5), ("return", 9)]⟩

/-- Witness data: a second rule declared over the base class token 3. -/
def demoRuleDup : RuleFunc := ⟨5, [("compiler", 0), ("sl", 3), ("return", 9)]⟩

/-- Witness data: a rule function without a return annotation. -/
def demoNoReturnRule : RuleFunc := ⟨6, [("compiler", 0), ("sl", 3)]⟩

/-- Witness data: a rule function whose only annotation is the return
annotation. -/
def demoOnlyReturnRule : RuleFunc := ⟨7, [("return", 9)]⟩

/-- C3 witness at the concrete registry and hierarchy. -/
theorem retrieve_rule_exact_dispatch_witness :
    demoRegistry.retrieve_rule 3 = .ok demoRuleA ∧
    demoRegistry.retrieve_rule 4 = .ok demoRuleB ∧
    demoRegistry.retrieve_rule 5 = .error .ruleNotFound :=
  retrieve_rule_exact_dispatch demoRegistry demoIssub 3 4 5 demoRuleA demoRuleB
    (by decide) (by decide) (by decide) (by decide) (by decide) (by decide)

/-- C4 witness at the concrete invalid rule. -/
theorem add_rule_rejects_invalid_rule_witness :
    CompilerRegistry.add_rule demoIssub 3 ⟨[]⟩ demoBadRule = .error .invalidRule :=
  add_rule_rejects_invalid_rule demoIssub 3 ⟨[]⟩ demoBadRule 7
    (by decide) (by decide) (by decide) (by decide)

/-- C7 witness at the concrete rule with last typed parameter of type 5. -/
theorem signature_derivation_witness :
    retrieve_signature demoRuleC = .ok 5 ∧
    (CompilerRegistry.mk (demoRegistry.rules ++ [(5, demoRuleC)])).rules =
      demoRegistry.rules ++ [(5, demoRuleC)] ∧
    (CompilerRegistry.mk (demoRegistry.rules ++ [(5, demoRuleC)])).retrieve_rule 5 =
      .ok demoRuleC :=
  signature_derivation demoIssub 3 demoRegistry
    ⟨demoRegistry.rules ++ [(5, demoRuleC)]⟩ demoRuleC 5
    (by decide) (by decide) (by decide) (by rfl)

/-- C8 witness: re-registering signature 3 is rejected and the old rule
stays. -/
theorem add_rule_duplicate_signature_witness :
    demoRegistry.add_rule demoIssub 3 demoRuleDup = .error .duplicateSignature ∧
    demoRegistry.retrieve_rule 3 = .ok demoRuleA :=
  add_rule_duplicate_signature demoIssub 3 demoRegistry demoRuleDup demoRuleA 3
    (by decide) (by decide) (by decide) (by decide) (by decide) (by decide)

/-- C10 witness at the two malformed rule functions. -/
theorem rule_validation_unguarded_witness :
    (validate_rule_function demoIssub 3 demoNoReturnRule = .error .keyError ∧
      retrieve_signature demoNoReturnRule = .error .keyError ∧
      CompilerRegistry.add_rule demoIssub 3 ⟨[]⟩ demoNoReturnRule =
        .error .keyError) ∧
    (validate_rule_function demoIssub 3 demoOnlyReturnRule = .error .indexError ∧
      retrieve_signature demoOnlyReturnRule = .error .indexError ∧
      CompilerRegistry.add_rule demoIssub 3 ⟨[]⟩ demoOnlyReturnRule =
        .error .indexError) :=
  ⟨(rule_validation_unguarded demoIssub 3 ⟨[]⟩ demoNoReturnRule).1 (by decide),
   (rule_validation_unguarded demoIssub 3 ⟨[]⟩ demoOnlyReturnRule).2
     (by decide) (by decide)⟩

/-- C2 witness: registering (0, 5) into the empty map. -/
theorem compiled_circuits_map_bijection_witness :
    CompiledCircuitsMap.Inv ⟨⟨[(0, 5)], [(5, 0)]⟩⟩ ∧
    CompiledCircuitsMap.get_compiled_circuit ⟨⟨[(0, 5)], [(5, 0)]⟩⟩ 0 = .ok 5 ∧
    CompiledCircuitsMap.get_symbolic_circuit ⟨⟨[(0, 5)], [(5, 0)]⟩⟩ 5 = .ok 0 ∧
    (∀ x y y' : Nat, (x, y) ∈ (BiMap.mk [(0, 5)] [(5, 0)]).fwd →
      (x, y') ∈ (BiMap.mk [(0, 5)] [(5, 0)]).fwd → y = y') ∧
    (∀ x x' y : Nat, (x, y) ∈ (BiMap.mk [(0, 5)] [(5, 0)]).fwd →
      (x', y) ∈ (BiMap.mk [(0, 5)] [(5, 0)]).fwd → x = x') :=
  compiled_circuits_map_bijection ⟨⟨[], []⟩⟩ ⟨⟨[(0, 5)], [(5, 0)]⟩⟩
    ⟨by simp, by simp, fun s c => by simp⟩ 0 5 rfl

/-- C6 witness: one rejected and one successful insertion. -/
theorem register_compiled_circuit_atomic_witness :
    CompiledCircuitsMap.register_compiled_circuit ⟨⟨[(0, 5)], [(5, 0)]⟩⟩ 0 6 =
      .error .alreadyRegistered ∧
    CompiledCircuitsMap.register_compiled_circuit ⟨⟨[(0, 5)], [(5, 0)]⟩⟩ 1 6 =
      .ok ⟨⟨(BiMap.mk [(0, 5)] [(5, 0)]).fwd ++ [(1, 6)],
           (BiMap.mk [(0, 5)] [(5, 0)]).bwd ++ [(6, 1)]⟩⟩ :=
  ⟨(register_compiled_circuit_atomic ⟨⟨[(0, 5)], [(5, 0)]⟩⟩ 0 6).1
      (Or.inl (by decide)),
   (register_compiled_circuit_atomic ⟨⟨[(0, 5)], [(5, 0)]⟩⟩ 1 6).2
      (by decide) (by decide)⟩

/-- Witness data: a compiler state with empty registries and an empty
compiled-circuit map. -/
def emptyState : CompilerState := ⟨⟨[]⟩, ⟨[]⟩, ⟨[]⟩, ⟨⟨[], []⟩⟩⟩

/-- Witness data: the compiler state after registering (0, 7). -/
def demoState1 : CompilerState := ⟨⟨[]⟩, ⟨[]⟩, ⟨[]⟩, ⟨⟨[(0, 7)], [(7, 0)]⟩⟩⟩

/-- Witness data: a pipeline that registers the requested circuit to the
compiled value 7 and returns it. -/
def demoPipeline : Pipeline := fun st sc =>
  ({ st with compiled_circuits := ⟨⟨[(sc, 7)], [(7, sc)]⟩⟩ }, some 7)

/-- Witness data: a pipeline that always raises, leaving the state
untouched. -/
def failingPipeline : Pipeline := fun st _ => (st, none)

/-- Witness data: a pipeline that returns a compiled value without
registering it. -/
def nonRegisteringPipeline : Pipeline := fun st _ => (st, some 9)

/-- C1 witness: compiling circuit 0 from the empty state with the
registering pipeline. -/
theorem compile_memoization_witness :
    (1 : Nat) = 1 ∧ compile demoPipeline demoState1 0 = (demoState1, some 7, 0) :=
  compile_memoization demoPipeline
    (by
      intro st sc st' c h
      unfold demoPipeline at h
      simp only [Prod.mk.injEq] at h
      obtain ⟨h1, h2⟩ := h
      injection h2 with h2
      constructor
      · rw [← h1]
        simp [CompilerState.is_compiled, CompiledCircuitsMap.is_compiled,
          BiMap.has_left]
      · rw [← h1, ← h2]
        simp [CompilerState.get_compiled_circuit,
          CompiledCircuitsMap.get_compiled_circuit, BiMap.get_left,
          List.find?_cons])
    emptyState demoState1 0 7 1 (by decide) (by rfl)

/-- C5 witness: the raising pipeline leaves the empty state untouched and
the retry re-runs the pipeline. -/
theorem compile_failure_no_pollution_witness :
    emptyState = emptyState ∧ emptyState.is_compiled 0 = false ∧
    (compile failingPipeline emptyState 0).2.2 = 1 :=
  compile_failure_no_pollution failingPipeline
    (by
      intro st sc st' h
      unfold failingPipeline at h
      simp only [Prod.mk.injEq] at h
      exact h.1.symm)
    emptyState emptyState 0 1 (by decide) (by rfl)

/-- C9 witness: the non-registering pipeline's value is returned, the
circuit stays uncompiled, and the retry re-invokes the pipeline. -/
theorem compile_does_not_register_witness :
    compile nonRegisteringPipeline emptyState 0 = (emptyState, some 9, 1) ∧
    emptyState.is_compiled 0 = false ∧
    (compile nonRegisteringPipeline emptyState 0).2.2 = 1 :=
  compile_does_not_register nonRegisteringPipeline emptyState emptyState 0 9
    (by decide) (by rfl) (by rfl)

end Cirkit
